import Mathlib

/-!
Verification of the DnF launcher backend (`src/db.rs`, `src/app.rs`).

The Rust code is shallowly embedded: the five relational stores become
explicit list-based states, each database statement becomes a pure state
transformer, fallible operations return `Except`, and the byte/string
encodings used by the token signer (hex, base64) are implemented as
executable Lean functions mirroring the semantics of the Rust libraries
(`num_bigint::BigUint::parse_bytes` / `to_str_radix`, `hex::decode`,
`base64::engine::general_purpose::STANDARD`).

The RSA private key is loaded in the Rust code from `src/key.txt`
(`include_str!`), a file that is not part of the sources here; the key is
therefore modelled as an explicit pair of parameters `(d, n)` (private
exponent and modulus), and the MD5 digest used for password hashing is
modelled as an abstract digest function parameter.
-/

namespace DnF

set_option maxRecDepth 100000

/-! ## Hexadecimal primitives -/

/-- Value of one hex digit character (0 for non-digits; callers guard with
`isHexDigit`).  Mirrors the case-insensitive digit handling of both
`BigUint::parse_bytes(_, 16)` and `hex::decode`. -/
def hexDigitVal (c : Char) : Nat :=
  if 48 ≤ c.toNat ∧ c.toNat ≤ 57 then c.toNat - 48
  else if 97 ≤ c.toNat ∧ c.toNat ≤ 102 then c.toNat - 87
  else if 65 ≤ c.toNat ∧ c.toNat ≤ 70 then c.toNat - 55
  else 0

def isHexDigit (c : Char) : Bool :=
  (48 ≤ c.toNat ∧ c.toNat ≤ 57) ∨ (97 ≤ c.toNat ∧ c.toNat ≤ 102) ∨
    (65 ≤ c.toNat ∧ c.toNat ≤ 70)

/-- Big-endian value of a hex digit string (accumulator form, as the
parsing loop of `BigUint::parse_bytes` computes it). -/
def hexValue (l : List Char) : Nat :=
  l.foldl (fun acc c => acc * 16 + hexDigitVal c) 0

/-- `BigUint::parse_bytes(s, 16)`: `none` on an empty string or any
non-hex-digit byte, otherwise the big-endian value. -/
def parseHex (s : String) : Option Nat :=
  if s.data.isEmpty then none
  else if s.data.all isHexDigit then some (hexValue s.data) else none

/-- Fuel-driven base-16 digit expansion (most significant first). -/
def hexDigitsF : Nat → Nat → List Nat
  | 0, _ => []
  | fuel + 1, n => if n < 16 then [n] else hexDigitsF fuel (n / 16) ++ [n % 16]

/-- Base-16 digits of `n`, most significant first, no leading zeros
(`[0]` for zero). -/
def hexDigits (n : Nat) : List Nat := hexDigitsF (n + 1) n

/-- Big-endian value of a base-16 digit list. -/
def digitsVal : List Nat → Nat
  | [] => 0
  | d :: ds => d * 16 ^ ds.length + digitsVal ds

def hexCharLower (d : Nat) : Char := "0123456789abcdef".data.getD d '0'

def hexCharUpper (d : Nat) : Char := "0123456789ABCDEF".data.getD d '0'

/-- `BigUint::to_str_radix(16)`: lowercase hex, no leading zeros. -/
def toHexString (n : Nat) : String :=
  String.mk ((hexDigits n).map hexCharLower)

/-- Rust `format!("0:08X", u)` (zero-padded to width 8, uppercase). -/
def toUpperHex8 (u : Nat) : String :=
  let ds := hexDigits u
  String.mk ((List.replicate (8 - ds.length) 0 ++ ds).map hexCharUpper)

/-- `hex::decode`: bytes from pairs of hex digits; fails on an odd-length
string or a non-hex character. -/
def hexPairs : List Char → Option (List Nat)
  | [] => some []
  | [_] => none
  | a :: b :: rest =>
    if isHexDigit a ∧ isHexDigit b then
      (hexPairs rest).map (fun bs => (hexDigitVal a * 16 + hexDigitVal b) :: bs)
    else none

/-- Big-endian value of a byte list (base 256). -/
def bytesVal : List Nat → Nat
  | [] => 0
  | b :: bs => b * 256 ^ bs.length + bytesVal bs

/-! ## Base64 (standard alphabet, `=` padding) -/

def b64chars : List Char :=
  "ABCDEFGHIJKLMNOPQRSTUVWXYZabcdefghijklmnopqrstuvwxyz0123456789+/".data

def b64c (n : Nat) : Char := b64chars.getD n '='

/-- `base64::engine::general_purpose::STANDARD.encode`. -/
def base64Encode : List Nat → List Char
  | [] => []
  | [a] => [b64c (a / 4), b64c (a % 4 * 16), '=', '=']
  | [a, b] => [b64c (a / 4), b64c (a % 4 * 16 + b / 16), b64c (b % 16 * 4), '=']
  | a :: b :: c :: rest =>
    b64c (a / 4) :: b64c (a % 4 * 16 + b / 16) :: b64c (b % 16 * 4 + c / 64)
      :: b64c (c % 64) :: base64Encode rest

/-- Index of a character in the base64 alphabet (decoder helper used only
in proofs of injectivity of `base64Encode`). -/
def b64idx (c : Char) : Option Nat :=
  let i := b64chars.indexOf c
  if i < 64 then some i else none

/-- Standard base64 decoder (proof-side inverse of `base64Encode`). -/
def base64Decode : List Char → Option (List Nat)
  | [] => some []
  | c1 :: c2 :: c3 :: c4 :: rest =>
    match b64idx c1, b64idx c2 with
    | some s1, some s2 =>
      if c3 = '=' then
        if c4 = '=' ∧ rest = [] then some [s1 * 4 + s2 / 16] else none
      else
        match b64idx c3 with
        | some s3 =>
          if c4 = '=' then
            if rest = [] then some [s1 * 4 + s2 / 16, s2 % 16 * 16 + s3 / 4]
            else none
          else
            match b64idx c4 with
            | some s4 =>
              (base64Decode rest).map
                (fun bs => (s1 * 4 + s2 / 16) :: (s2 % 16 * 16 + s3 / 4)
                  :: (s3 % 4 * 64 + s4) :: bs)
            | none => none
        | none => none
    | _, _ => none
  | _ => none

/-! ## Rust `str::trim` and `i32::from_str` -/

def trimChars (l : List Char) : List Char :=
  ((l.dropWhile Char.isWhitespace).reverse.dropWhile Char.isWhitespace).reverse

/-- Value of a decimal digit run; `none` if empty or any non-digit. -/
def decDigitsVal : List Char → Option Nat
  | [] => none
  | l =>
    if l.all (fun c => 48 ≤ c.toNat ∧ c.toNat ≤ 57) then
      some (l.foldl (fun acc c => acc * 10 + (c.toNat - 48)) 0)
    else none

/-- Rust `i32::from_str`: optional sign, decimal digits, range-checked. -/
def parseI32 (l : List Char) : Option Int :=
  match l with
  | '+' :: rest => (decDigitsVal rest).bind
      (fun v => if v ≤ 2 ^ 31 - 1 then some (v : Int) else none)
  | '-' :: rest => (decDigitsVal rest).bind
      (fun v => if v ≤ 2 ^ 31 then some (-(v : Int)) else none)
  | rest => (decDigitsVal rest).bind
      (fun v => if v ≤ 2 ^ 31 - 1 then some (v : Int) else none)

/-! ## Data model (`src/db.rs`)

Store states are explicit: each MySQL table is a list of rows.  Cells that
the Rust code reads through fallible `try_get` with a default fallback are
modelled by `Val` (a dynamically typed cell that may fail to decode);
cells read with `?` propagation or used as join keys are typed directly. -/

/-- A dynamically typed result-set cell, as handed back by `sqlx`.
`try_get::<i32/i64>` succeeds only on `vint`, `try_get::<String>` only on
`vstr`; a NULL produced by a LEFT JOIN is `vnull`. -/
inductive Val where
  | vint (i : Int)
  | vstr (s : String)
  | vnull
deriving DecidableEq, Repr

def Val.asInt : Val → Option Int
  | .vint i => some i
  | _ => none

def Val.asStr : Val → Option String
  | .vstr s => some s
  | _ => none

/-- SQL `cera + amount` on a cell known to the schema to be numeric. -/
def Val.addI : Val → Int → Val
  | .vint c, a => .vint (c + a)
  | v, _ => v

inductive JobName where
  | MaleSlayer
  | FemaleFighter
  | MaleGunner
  | FemaleMage
  | MalePriest
  | FemaleGunner
  | Thief
  | MaleFighter
  | MaleMage
  | FemalePriest
  | FemaleSlayer
  | Unknown
deriving DecidableEq, Repr

/-- `JobName::from_id` (`db.rs:66`). -/
def JobName.from_id (job_id : Int) : JobName :=
  match job_id with
  | 0 => .MaleSlayer
  | 1 => .FemaleFighter
  | 2 => .MaleGunner
  | 3 => .FemaleMage
  | 4 => .MalePriest
  | 5 => .FemaleGunner
  | 6 => .Thief
  | 7 => .MaleFighter
  | 8 => .MaleMage
  | 9 => .FemalePriest
  | 10 => .FemaleSlayer
  | _ => .Unknown

structure Character where
  id : Int
  name : String
  level : Int
  job : JobName
  money : Int
deriving DecidableEq, Repr

structure LoginSession where
  uid : Int
  token : String
  characters : List Character
  cera : Int
deriving DecidableEq, Repr

/-- Row of `accounts` in the main store (columns used by the code). -/
structure AccountRow where
  uid : Int
  accountname : String
  password : List Nat
  qq : String
deriving DecidableEq, Repr

/-- Main (account) store: `accounts` plus the three dependent tables
written by `create_account`; `nextUid` models the auto-increment uid. -/
structure MainStore where
  accounts : List AccountRow
  limit_create_character : List Int
  member_info : List (Int × String)
  member_white_account : List Int
  nextUid : Int
deriving DecidableEq, Repr

/-- Row of `cash_cera` in the billing store (key and balance cell). -/
structure CeraRow where
  account : Int
  cera : Val
deriving DecidableEq, Repr

structure BillingStore where
  cash_cera : List CeraRow
deriving DecidableEq, Repr

/-- Row of `charac_info` in the character store. -/
structure CharacInfoRow where
  charac_no : Int
  m_id : Int
  delete_flag : Int
  charac_name : Val
  lev : Val
  job : Val
deriving DecidableEq, Repr

structure CharaStore where
  charac_info : List CharacInfoRow
deriving DecidableEq, Repr

/-- Row of `inventory` in the inventory store. -/
structure InvRow where
  charac_no : Int
  money : Int
deriving DecidableEq, Repr

structure InventoryStore where
  inventory : List InvRow
deriving DecidableEq, Repr

structure LoginStore where
  member_login : List Int
deriving DecidableEq, Repr

/-- The five independently addressed stores (`DbPool` tags in the code). -/
structure Stores where
  main : MainStore
  billing : BillingStore
  chara : CharaStore
  inv : InventoryStore
  login : LoginStore
deriving DecidableEq, Repr

/-! ## Password hashing (`db.rs:278`)

`hash_password` is `format!("1:x", md5::compute(password))`; the MD5
digest-to-lowercase-hex composite is the abstract parameter `digestHex`. -/

def hash_password (digestHex : String → String) (password : String) : String :=
  digestHex password

/-- `s.as_bytes()` (exact for the ASCII hex strings produced here). -/
def strBytes (s : String) : List Nat := s.data.map Char.toNat

/-- `check_password` (`db.rs:283`): byte equality of the hex digest
against the stored bytes. -/
def check_password (digestHex : String → String) (password : String)
    (stored_hash : List Nat) : Bool :=
  strBytes (hash_password digestHex password) == stored_hash

/-! ## Token signer (`Db::generate_login_token`, `db.rs:267`) -/

def pre_str : String := "1FFFFFFFFFFFFFFFFFFFFFFFFFFFFFFFFFFFFFFFFFFFFFFFFFFFFFFFFFFFFFFFFFFFFFFFFFFFFFFFFFFFFFFFFFFFFFFFFFFFFFFFFFFFFFFFFFFFFFFFFFFFFFFFFFFFFFFFFFFFFFFFFFFFFFFFFFFFFFFFFFFFFFFFFFFFFFFFFFFFFFFFFFFFFFFFFFFFFFFFFFFFFFFFFFFFFFFFFFFFFFFFFFFFFFFFFFFFFFFFFFFFFFFFFFFFFFFFFFFFFFFFFFFFFFFFFFFFFFFFFFFFFFFFFFFFFFFFFFFFFFFFFFFFFFFFFFFFFFFFFFFFFFFFFFFFFFFFFFFFFFFFFFFFFFFFFFFFFFFFFFFFFFFFFFFFFFFFFFFFFFFFFFFFFFFFFFFFFFFFFFFFFFFFFFFFFFF00"

def next_str : String := "010101010101010101010101010101010101010101010101010101010101010155914510010403030101"

/-- `uid as u32` (two's-complement cast of an `i32`). -/
def uidU32 (uid : Int) : Nat := (uid % (2 ^ 32 : Int)).toNat

/-- The hex source string `format!("2pre_str3uid_hex4next_str")`. -/
def token_src (uid : Int) : String :=
  pre_str ++ toUpperHex8 (uidU32 uid) ++ next_str

/-- Numeric value of the signing payload. -/
def msgNat (uid : Int) : Nat := hexValue (token_src uid).data

/-- `Db::generate_login_token`, with the private key `(d, n)` explicit
(the embedded `key.txt` is not among the sources). -/
def generate_login_token (d n : Nat) (uid : Int) : Except String String :=
  match parseHex (token_src uid) with
  | none => .error "Hex fail"
  | some message =>
    let encrypted := message ^ d % n
    match hexPairs (toHexString encrypted).data with
    | none => .error "hex decode error"
    | some bytes => .ok (String.mk (base64Encode bytes))

/-! ## Store mutations -/

/-- `Db::send_gold` (`db.rs:121`): `UPDATE inventory SET money = money + ?
WHERE charac_no = ?`.  The number of affected rows is ignored and the
result is `Ok(())` unconditionally. -/
def db_send_gold (st : Stores) (char_id amount : Int) :
    Except String Unit × Stores :=
  let inv' := st.inv.inventory.map fun r =>
    if r.charac_no = char_id then { r with money := r.money + amount } else r
  (.ok (), { st with inv := ⟨inv'⟩ })

/-- `Db::send_cera` (`db.rs:132`): `INSERT INTO cash_cera ... ON DUPLICATE
KEY UPDATE cera = cera + ?` — a single upsert statement keyed by
`account`. -/
def db_send_cera (st : Stores) (uid amount : Int) :
    Except String Unit × Stores :=
  let rows := st.billing.cash_cera
  let rows' :=
    if rows.any (fun r => r.account == uid) then
      rows.map fun r =>
        if r.account = uid then { r with cera := r.cera.addI amount } else r
    else rows ++ [{ account := uid, cera := .vint amount }]
  (.ok (), { st with billing := ⟨rows'⟩ })

/-! ## Login (`Db::perform_login`, `db.rs:148`) -/

/-- Store interactions, in program order, recorded as a trace. -/
inductive Eff where
  | connMain
  | queryAccount
  | connBilling
  | queryCera
  | connChara
  | queryChars
  | genToken
deriving DecidableEq, Repr

/-- The `i.money` cell produced by the LEFT JOIN onto `inventory`:
NULL (`vnull`) when no inventory row matches the character. -/
def joinMoney (inv : InventoryStore) (cno : Int) : Val :=
  match inv.inventory.find? (fun i => i.charac_no == cno) with
  | some i => .vint i.money
  | none => .vnull

/-- One result row of the roster SELECT, as a record of dynamic cells. -/
structure CharRow where
  charac_no : Val
  charac_name : Val
  lev : Val
  job : Val
  money : Val
deriving DecidableEq, Repr

/-- The roster query: `charac_info` filtered to `m_id = uid` and
`delete_flag = 0`, left-joined with `inventory` on `charac_no`. -/
def rosterQuery (uid : Int) (cs : CharaStore) (inv : InventoryStore) :
    List CharRow :=
  (cs.charac_info.filter fun r => r.m_id == uid && r.delete_flag == 0).map
    fun r =>
      { charac_no := .vint r.charac_no
        charac_name := r.charac_name
        lev := r.lev
        job := r.job
        money := joinMoney inv r.charac_no }

/-- Row-to-`Character` decoding (`db.rs:181`): every fallible `try_get`
falls back to the type's default (`unwrap_or_default` / `unwrap_or(0)`). -/
def decodeCharacter (r : CharRow) : Character :=
  let job_id : Int := r.job.asInt.getD 0
  { id := r.charac_no.asInt.getD 0
    name := r.charac_name.asStr.getD ""
    level := r.lev.asInt.getD 0
    job := JobName.from_id job_id
    money := r.money.asInt.getD 0 }

/-- `Db::perform_login`, returning the result together with the trace of
store interactions performed. -/
def perform_login (digestHex : String → String) (d n : Nat) (st : Stores)
    (username password : String) : Except String LoginSession × List Eff :=
  let tr0 : List Eff := [.connMain, .queryAccount]
  match st.main.accounts.find? (fun r => r.accountname == username) with
  | none => (.error "User not found", tr0)
  | some row =>
    if check_password digestHex password row.password then
      let cera : Int :=
        ((st.billing.cash_cera.find? (fun r => r.account == row.uid)).bind
          (fun r => r.cera.asInt)).getD 0
      let characters :=
        (rosterQuery row.uid st.chara st.inv).map decodeCharacter
      let tr := tr0 ++ [.connBilling, .queryCera, .connChara, .queryChars,
        .genToken]
      match generate_login_token d n row.uid with
      | .error e => (.error e, tr)
      | .ok token =>
        (.ok { uid := row.uid, token := token, characters := characters,
               cera := cera }, tr)
    else (.error "Invalid password", tr0)

/-! ## Account creation (`Db::create_account`, `db.rs:203`) -/

/-- Failure injection for the store writes of `create_account`: `true`
means the corresponding statement fails at the store. -/
structure Failures where
  insAccount : Bool
  insLimit : Bool
  insMember : Bool
  insWhite : Bool
  insLogin : Bool
deriving DecidableEq, Repr

/-- `Db::create_account`.  The four main-store writes run inside one
transaction: on any failure the transaction is rolled back, so the
returned state keeps the original `main` store.  The login-store append
runs after the commit on a separate connection; its failure propagates
(`?`) but cannot undo the commit. -/
def create_account (digestHex : String → String) (st : Stores)
    (username password : String) (f : Failures) :
    Except String Unit × Stores :=
  match st.main.accounts.find? (fun r => r.accountname == username) with
  | some _ => (.error "Account name already exists!", st)
  | none =>
    if f.insAccount then (.error "insert account failed", st)
    else
      let hashed := strBytes (hash_password digestHex password)
      let m1 : MainStore :=
        { st.main with
          accounts := st.main.accounts ++
            [{ uid := st.main.nextUid, accountname := username,
               password := hashed, qq := password }]
          nextUid := st.main.nextUid + 1 }
      match m1.accounts.find? (fun r => r.accountname == username) with
      | none => (.error "UID Fail", st)
      | some row =>
        let uid := row.uid
        if f.insLimit then (.error "insert limit failed", st)
        else if f.insMember then (.error "insert member failed", st)
        else if f.insWhite then (.error "insert white failed", st)
        else
          let m4 : MainStore :=
            { m1 with
              limit_create_character := m1.limit_create_character ++ [uid]
              member_info := m1.member_info ++ [(uid, toString uid)]
              member_white_account := m1.member_white_account ++ [uid] }
          let committed : Stores := { st with main := m4 }
          if f.insLogin then (.error "insert login failed", committed)
          else
            (.ok (),
             { committed with
               login := ⟨committed.login.member_login ++ [uid]⟩ })

/-! ## UI orchestration layer (`src/app.rs`)

Only the validation-and-dispatch logic is embedded.  A successful
`send_gold`/`send_cera` call in the Rust code spawns an async future that
performs the store calls; here that future is reified as a `Spawn` value
describing the store call it would issue, so "no store call is made" is
the absence of a `Spawn`. -/

inductive StatusKind where
  | info
  | success
  | error
deriving DecidableEq, Repr

structure Status where
  kind : StatusKind
  message : String
deriving DecidableEq, Repr

def Status.mkError (message : String) : Status :=
  { kind := .error, message := message }

/-- The store call a spawned `send_gold` future would issue. -/
structure SpawnGold where
  char_id : Int
  amount : Int
deriving DecidableEq, Repr

/-- The store call a spawned `send_cera` future would issue. -/
structure SpawnCera where
  uid : Int
  amount : Int
deriving DecidableEq, Repr

/-- The fields of `LauncherApp` consulted by `send_gold` / `send_cera`:
the amount text box, the selected character index, the current session,
and whether an async operation is already pending. -/
structure AppState where
  amount : String
  selected_char : Option Nat
  current_session : Option LoginSession
  pending : Bool

def defaultCharacter : Character :=
  { id := 0, name := "", level := 0, job := .Unknown, money := 0 }

/-- `LauncherApp::parse_amount` (`app.rs:211`): trim, parse as `i32`,
accept only strictly positive values; everything else is the
`"Wrong value!"` validation error. -/
def parse_amount (app : AppState) : Except Status Int :=
  match parseI32 (trimChars app.amount.data) with
  | some val => if val > 0 then .ok val else .error (Status.mkError "Wrong value!")
  | none => .error (Status.mkError "Wrong value!")

/-- `LauncherApp::send_gold` (`app.rs:168`): validation happens before the
future is spawned — amount first, then session, then character selection,
then the single-in-flight check of `spawn_action`. -/
def app_send_gold (app : AppState) : Except Status SpawnGold :=
  match parse_amount app with
  | .error s => .error s
  | .ok amount =>
    match app.current_session with
    | none => .error (Status.mkError "No session")
    | some session =>
      match app.selected_char with
      | none => .error (Status.mkError "Select a character")
      | some idx =>
        let char_id := (session.characters.getD idx defaultCharacter).id
        if app.pending then .error (Status.mkError "Operation in progress")
        else .ok { char_id := char_id, amount := amount }

/-- `LauncherApp::send_cera` (`app.rs:191`). -/
def app_send_cera (app : AppState) : Except Status SpawnCera :=
  match parse_amount app with
  | .error s => .error s
  | .ok amount =>
    match app.current_session with
    | none => .error (Status.mkError "No session")
    | some session =>
      if app.pending then .error (Status.mkError "Operation in progress")
      else .ok { uid := session.uid, amount := amount }

/-- An operation was rejected with a `ValidationError`-kind status (an
`Err` carrying `StatusKind::Error`), hence no `Spawn` was produced. -/
def rejected {α : Type} : Except Status α → Bool
  | .error s => s.kind == .error
  | .ok _ => false

/-! ## Spec-side token signer (for the refinement claim)

Modelled from the spec §4.2: the message is the integer value of the hex
string formed by concatenating the constant prefix, the uid rendered as
exactly 8 zero-padded big-endian uint32 hex digits, and the constant
suffix; it is raised to the RSA private exponent modulo the modulus, the
result is rendered in hex, hex-decoded to raw bytes, and base64-encoded. -/

/-- The uid rendered as exactly 8 zero-padded big-endian uint32 hex
digits (spec wording, rendered digit by digit). -/
def uid_hex_spec (u : Nat) : List Char :=
  (List.range 8).map fun i => hexCharUpper (u / 16 ^ (7 - i) % 16)

/-- Spec-side signing function (`sign` of spec §4.2). -/
def sign_spec (d n : Nat) (uid : Int) : Option String :=
  let u := uidU32 uid
  let m := hexValue (pre_str.data ++ uid_hex_spec u ++ next_str.data)
  let s := m ^ d % n
  (hexPairs (toHexString s).data).map fun bs => String.mk (base64Encode bs)

/-! ## Lemmas: hexadecimal values and digit expansions -/

theorem hexDigitVal_lt (c : Char) : hexDigitVal c < 16 := by
  unfold hexDigitVal
  split
  · omega
  · split
    · omega
    · split <;> omega

theorem hexValue_foldl (l : List Char) (init : Nat) :
    l.foldl (fun acc c => acc * 16 + hexDigitVal c) init =
      init * 16 ^ l.length + hexValue l := by
  induction l generalizing init with
  | nil => simp [hexValue]
  | cons c cs ih =>
    simp only [List.foldl_cons, hexValue, List.length_cons]
    rw [ih (init * 16 + hexDigitVal c), ih (0 * 16 + hexDigitVal c)]
    ring

theorem hexValue_cons (c : Char) (cs : List Char) :
    hexValue (c :: cs) = hexDigitVal c * 16 ^ cs.length + hexValue cs := by
  show List.foldl _ _ _ = _
  rw [List.foldl_cons, hexValue_foldl]
  ring_nf

theorem hexValue_append (l1 l2 : List Char) :
    hexValue (l1 ++ l2) = hexValue l1 * 16 ^ l2.length + hexValue l2 := by
  show List.foldl _ _ _ = _
  rw [List.foldl_append, hexValue_foldl]
  rfl

theorem hexValue_lt (l : List Char) : hexValue l < 16 ^ l.length := by
  induction l with
  | nil => simp [hexValue]
  | cons c cs ih =>
    rw [hexValue_cons]
    have h := hexDigitVal_lt c
    have : hexDigitVal c * 16 ^ cs.length + hexValue cs <
        (hexDigitVal c + 1) * 16 ^ cs.length := by
      calc hexDigitVal c * 16 ^ cs.length + hexValue cs
          < hexDigitVal c * 16 ^ cs.length + 16 ^ cs.length := by omega
        _ = (hexDigitVal c + 1) * 16 ^ cs.length := by ring
    calc hexDigitVal c * 16 ^ cs.length + hexValue cs
        < (hexDigitVal c + 1) * 16 ^ cs.length := this
      _ ≤ 16 * 16 ^ cs.length := by
          exact Nat.mul_le_mul_right _ (by omega)
      _ = 16 ^ (c :: cs).length := by
          simp [List.length_cons, pow_succ]; ring

theorem digitsVal_append_singleton (l : List Nat) (d : Nat) :
    digitsVal (l ++ [d]) = digitsVal l * 16 + d := by
  induction l with
  | nil => simp [digitsVal]
  | cons x xs ih =>
    simp only [List.cons_append, digitsVal, List.append_eq, ih,
      List.length_append, List.length_cons, List.length_nil]
    ring

theorem hexDigitsF_congr (f1 : Nat) :
    ∀ f2 n, n < f1 → n < f2 → hexDigitsF f1 n = hexDigitsF f2 n := by
  induction f1 with
  | zero => intro f2 n h1 _; omega
  | succ f1' ih =>
    intro f2 n h1 h2
    match f2, h2 with
    | f2' + 1, _ =>
      simp only [hexDigitsF]
      by_cases hn : n < 16
      · simp [hn]
      · simp only [hn, if_false]
        have hd : n / 16 < n := Nat.div_lt_self (by omega) (by omega)
        rw [ih f2' (n / 16) (by omega) (by omega)]

theorem hexDigits_eq (n : Nat) :
    hexDigits n = if n < 16 then [n] else hexDigits (n / 16) ++ [n % 16] := by
  unfold hexDigits
  conv_lhs => rw [hexDigitsF]
  by_cases hn : n < 16
  · simp [hn]
  · simp only [hn, if_false]
    have hd : n / 16 < n := Nat.div_lt_self (by omega) (by omega)
    rw [hexDigitsF_congr n (n / 16 + 1) (n / 16) (by omega) (by omega)]

theorem digitsVal_hexDigits (n : Nat) : digitsVal (hexDigits n) = n := by
  induction n using Nat.strong_induction_on with
  | _ n ih =>
    rw [hexDigits_eq]
    by_cases hn : n < 16
    · simp [hn, digitsVal]
    · simp only [hn, if_false]
      rw [digitsVal_append_singleton,
        ih (n / 16) (Nat.div_lt_self (by omega) (by omega))]
      omega

theorem hexDigits_all_lt (n : Nat) : ∀ d ∈ hexDigits n, d < 16 := by
  induction n using Nat.strong_induction_on with
  | _ n ih =>
    rw [hexDigits_eq]
    by_cases hn : n < 16
    · simp [hn]
    · simp only [hn, if_false]
      intro d hd
      rcases List.mem_append.mp hd with h | h
      · exact ih (n / 16) (Nat.div_lt_self (by omega) (by omega)) d h
      · simp only [List.mem_singleton] at h
        omega

theorem hexDigits_length_le (n k : Nat) (hk : 0 < k) (h : n < 16 ^ k) :
    (hexDigits n).length ≤ k := by
  induction k generalizing n with
  | zero => omega
  | succ k' ih =>
    rw [hexDigits_eq]
    by_cases hn : n < 16
    · simp [hn]
    · simp only [hn, if_false, List.length_append, List.length_singleton]
      have hk' : 0 < k' := by
        by_contra hz
        have : k' = 0 := by omega
        subst this
        simp at h
        omega
      have hdiv : n / 16 < 16 ^ k' := by
        rw [pow_succ] at h
        exact Nat.div_lt_of_lt_mul (by omega)
      have := ih (n / 16) hk' hdiv
      omega

theorem hexDigits_ne_nil (n : Nat) : hexDigits n ≠ [] := by
  rw [hexDigits_eq]
  by_cases hn : n < 16 <;> simp [hn]

/-! ## Lemmas: digit characters, padded rendering, message decomposition -/

theorem hexDigitVal_hexCharLower : ∀ d, d < 16 → hexDigitVal (hexCharLower d) = d := by
  decide

theorem hexDigitVal_hexCharUpper : ∀ d, d < 16 → hexDigitVal (hexCharUpper d) = d := by
  decide

theorem isHexDigit_hexCharLower : ∀ d, d < 16 → isHexDigit (hexCharLower d) = true := by
  decide

theorem isHexDigit_hexCharUpper : ∀ d, d < 16 → isHexDigit (hexCharUpper d) = true := by
  decide

theorem hexValue_map_lower (ds : List Nat) (h : ∀ d ∈ ds, d < 16) :
    hexValue (ds.map hexCharLower) = digitsVal ds := by
  induction ds with
  | nil => simp [hexValue, digitsVal]
  | cons d ds ih =>
    rw [List.map_cons, hexValue_cons, List.length_map,
      hexDigitVal_hexCharLower d (h d (List.mem_cons_self d ds)),
      ih (fun x hx => h x (List.mem_cons_of_mem d hx))]
    rfl

theorem hexValue_map_upper (ds : List Nat) (h : ∀ d ∈ ds, d < 16) :
    hexValue (ds.map hexCharUpper) = digitsVal ds := by
  induction ds with
  | nil => simp [hexValue, digitsVal]
  | cons d ds ih =>
    rw [List.map_cons, hexValue_cons, List.length_map,
      hexDigitVal_hexCharUpper d (h d (List.mem_cons_self d ds)),
      ih (fun x hx => h x (List.mem_cons_of_mem d hx))]
    rfl

theorem digitsVal_replicate_zero (k : Nat) (ds : List Nat) :
    digitsVal (List.replicate k 0 ++ ds) = digitsVal ds := by
  induction k with
  | zero => simp
  | succ k' ih =>
    rw [List.replicate_succ, List.cons_append]
    show 0 * 16 ^ (List.replicate k' 0 ++ ds).length + _ = _
    rw [ih]
    ring

theorem toUpperHex8_data (u : Nat) :
    (toUpperHex8 u).data =
      (List.replicate (8 - (hexDigits u).length) 0 ++ hexDigits u).map
        hexCharUpper := rfl

theorem toUpperHex8_length (u : Nat) (h : u < 2 ^ 32) :
    (toUpperHex8 u).data.length = 8 := by
  rw [toUpperHex8_data, List.length_map, List.length_append,
    List.length_replicate]
  have : (hexDigits u).length ≤ 8 :=
    hexDigits_length_le u 8 (by omega) (by norm_num at h ⊢; omega)
  omega

theorem toUpperHex8_value (u : Nat) :
    hexValue (toUpperHex8 u).data = u := by
  rw [toUpperHex8_data, hexValue_map_upper]
  · rw [digitsVal_replicate_zero, digitsVal_hexDigits]
  · intro d hd
    rcases List.mem_append.mp hd with h | h
    · have := List.eq_of_mem_replicate h
      omega
    · exact hexDigits_all_lt u d h

theorem toUpperHex8_all_hex (u : Nat) :
    (toUpperHex8 u).data.all isHexDigit = true := by
  rw [toUpperHex8_data, List.all_eq_true]
  intro c hc
  obtain ⟨d, hd, rfl⟩ := List.mem_map.mp hc
  rcases List.mem_append.mp hd with h | h
  · have := List.eq_of_mem_replicate h
    subst this
    decide
  · exact isHexDigit_hexCharUpper d (hexDigits_all_lt u d h)

theorem uidU32_lt (uid : Int) : uidU32 uid < 2 ^ 32 := by
  unfold uidU32
  have h1 : uid % (2 ^ 32 : Int) < 2 ^ 32 :=
    Int.emod_lt_of_pos uid (by norm_num)
  omega

/-- Numeric values of the two constant hex strings. -/
def preVal : Nat := hexValue pre_str.data

def nextVal : Nat := hexValue next_str.data

theorem token_src_data (uid : Int) :
    (token_src uid).data =
      pre_str.data ++ (toUpperHex8 (uidU32 uid)).data ++ next_str.data := by
  unfold token_src
  rfl

theorem next_str_length : next_str.data.length = 84 := by decide

theorem msgNat_decomp (uid : Int) :
    msgNat uid = preVal * 16 ^ 92 + uidU32 uid * 16 ^ 84 + nextVal := by
  unfold msgNat preVal nextVal
  rw [token_src_data, hexValue_append, hexValue_append, next_str_length,
    toUpperHex8_length _ (uidU32_lt uid), toUpperHex8_value]
  ring

theorem msgNat_inj (uid1 uid2 : Int)
    (h1l : -(2 ^ 31) ≤ uid1) (h1u : uid1 < 2 ^ 31)
    (h2l : -(2 ^ 31) ≤ uid2) (h2u : uid2 < 2 ^ 31)
    (hne : uid1 ≠ uid2) : msgNat uid1 ≠ msgNat uid2 := by
  intro h
  rw [msgNat_decomp, msgNat_decomp] at h
  have hu : uidU32 uid1 = uidU32 uid2 := by
    have := Nat.eq_of_mul_eq_mul_right (show 0 < 16 ^ 84 by positivity)
      (show uidU32 uid1 * 16 ^ 84 = uidU32 uid2 * 16 ^ 84 by omega)
    exact this
  unfold uidU32 at hu
  have e1 : uid1 % (2 ^ 32 : Int) = uid2 % (2 ^ 32 : Int) := by omega
  omega

/-! ## Lemmas: `toHexString` and `hexPairs` -/

theorem hexValue_toHexString (s : Nat) :
    hexValue (toHexString s).data = s := by
  show hexValue ((hexDigits s).map hexCharLower) = s
  rw [hexValue_map_lower _ (hexDigits_all_lt s), digitsVal_hexDigits]

theorem hexPairs_length : ∀ (l : List Char) (bs : List Nat),
    hexPairs l = some bs → l.length = 2 * bs.length
  | [], bs, h => by
    simp only [hexPairs, Option.some_inj] at h
    subst h
    rfl
  | [c], bs, h => by
    simp [hexPairs] at h
  | a :: b :: rest, bs, h => by
    rw [hexPairs] at h
    by_cases hg : isHexDigit a ∧ isHexDigit b
    · rw [if_pos hg] at h
      cases hbs' : hexPairs rest with
      | none =>
        rw [hbs'] at h
        simp at h
      | some bs' =>
        rw [hbs'] at h
        simp only [Option.map_some', Option.some_inj] at h
        subst h
        have := hexPairs_length rest bs' hbs'
        simp only [List.length_cons]
        omega
    · simp [hg] at h

theorem hexPairs_val : ∀ (l : List Char) (bs : List Nat),
    hexPairs l = some bs → hexValue l = bytesVal bs
  | [], bs, h => by
    simp only [hexPairs, Option.some_inj] at h
    subst h
    rfl
  | [c], bs, h => by
    simp [hexPairs] at h
  | a :: b :: rest, bs, h => by
    rw [hexPairs] at h
    by_cases hg : isHexDigit a ∧ isHexDigit b
    · rw [if_pos hg] at h
      cases hbs' : hexPairs rest with
      | none =>
        rw [hbs'] at h
        simp at h
      | some bs' =>
        rw [hbs'] at h
        simp only [Option.map_some', Option.some_inj] at h
        subst h
        rw [hexValue_cons, hexValue_cons, hexPairs_val rest bs' hbs']
        show _ = (hexDigitVal a * 16 + hexDigitVal b) * 256 ^ bs'.length +
          bytesVal bs'
        have hlen : rest.length = 2 * bs'.length :=
          hexPairs_length rest bs' hbs'
        rw [List.length_cons, hlen]
        have h16 : (16 : Nat) ^ (2 * bs'.length) = 256 ^ bs'.length := by
          rw [pow_mul]
          norm_num
        rw [pow_succ, h16]
        ring
    · simp [hg] at h

theorem hexPairs_bytes_lt : ∀ (l : List Char) (bs : List Nat),
    hexPairs l = some bs → ∀ b ∈ bs, b < 256
  | [], bs, h => by
    simp only [hexPairs, Option.some_inj] at h
    subst h
    simp
  | [c], bs, h => by
    simp [hexPairs] at h
  | a :: b :: rest, bs, h => by
    rw [hexPairs] at h
    by_cases hg : isHexDigit a ∧ isHexDigit b
    · rw [if_pos hg] at h
      cases hbs' : hexPairs rest with
      | none =>
        rw [hbs'] at h
        simp at h
      | some bs' =>
        rw [hbs'] at h
        simp only [Option.map_some', Option.some_inj] at h
        subst h
        intro x hx
        rcases List.mem_cons.mp hx with hx | hx
        · have ha := hexDigitVal_lt a
          have hb := hexDigitVal_lt b
          omega
        · exact hexPairs_bytes_lt rest bs' hbs' x hx
    · simp [hg] at h

/-! ## Lemmas: base64 roundtrip and injectivity -/

theorem b64idx_b64c : ∀ s, s < 64 → b64idx (b64c s) = some s := by decide

theorem b64c_ne_pad : ∀ s, s < 64 → b64c s ≠ '=' := by decide

theorem base64_roundtrip1 (a : Nat) (ha : a < 256) :
    base64Decode (base64Encode [a]) = some [a] := by
  have h1 : a / 4 < 64 := by omega
  have h2 : a % 4 * 16 < 64 := by omega
  show base64Decode [b64c (a / 4), b64c (a % 4 * 16), '=', '='] = some [a]
  rw [base64Decode, b64idx_b64c _ h1, b64idx_b64c _ h2]
  simp
  omega

theorem base64_roundtrip2 (a b : Nat) (ha : a < 256) (hb : b < 256) :
    base64Decode (base64Encode [a, b]) = some [a, b] := by
  have h1 : a / 4 < 64 := by omega
  have h2 : a % 4 * 16 + b / 16 < 64 := by omega
  have h3 : b % 16 * 4 < 64 := by omega
  show base64Decode
      [b64c (a / 4), b64c (a % 4 * 16 + b / 16), b64c (b % 16 * 4), '='] =
    some [a, b]
  rw [base64Decode, b64idx_b64c _ h1, b64idx_b64c _ h2]
  simp [if_neg (b64c_ne_pad _ h3), b64idx_b64c _ h3]
  constructor
  · omega
  · omega

theorem base64_roundtrip : ∀ (l : List Nat), (∀ x ∈ l, x < 256) →
    base64Decode (base64Encode l) = some l
  | [], _ => rfl
  | [a], h => base64_roundtrip1 a (h a (by simp))
  | [a, b], h => base64_roundtrip2 a b (h a (by simp)) (h b (by simp))
  | a :: b :: c :: d :: rest, h => by
    have ha : a < 256 := h a (by simp)
    have hb : b < 256 := h b (by simp)
    have hc : c < 256 := h c (by simp)
    have h1 : a / 4 < 64 := by omega
    have h2 : a % 4 * 16 + b / 16 < 64 := by omega
    have h3 : b % 16 * 4 + c / 64 < 64 := by omega
    have h4 : c % 64 < 64 := by omega
    have hrec := base64_roundtrip (d :: rest)
      (fun x hx => h x (by simp at hx ⊢; tauto))
    show base64Decode
        (b64c (a / 4) :: b64c (a % 4 * 16 + b / 16)
          :: b64c (b % 16 * 4 + c / 64) :: b64c (c % 64)
          :: base64Encode (d :: rest)) =
      some (a :: b :: c :: d :: rest)
    rw [base64Decode, b64idx_b64c _ h1, b64idx_b64c _ h2]
    simp only [if_neg (b64c_ne_pad _ h3), if_neg (b64c_ne_pad _ h4),
      b64idx_b64c _ h3, b64idx_b64c _ h4, hrec, Option.map_some',
      Option.some_inj, List.cons.injEq, and_true]
    refine ⟨by omega, by omega, by omega⟩
  | [a, b, c], h => by
    have ha : a < 256 := h a (by simp)
    have hb : b < 256 := h b (by simp)
    have hc : c < 256 := h c (by simp)
    have h1 : a / 4 < 64 := by omega
    have h2 : a % 4 * 16 + b / 16 < 64 := by omega
    have h3 : b % 16 * 4 + c / 64 < 64 := by omega
    have h4 : c % 64 < 64 := by omega
    show base64Decode
        [b64c (a / 4), b64c (a % 4 * 16 + b / 16),
          b64c (b % 16 * 4 + c / 64), b64c (c % 64)] =
      some [a, b, c]
    rw [base64Decode, b64idx_b64c _ h1, b64idx_b64c _ h2]
    simp only [if_neg (b64c_ne_pad _ h3), if_neg (b64c_ne_pad _ h4),
      b64idx_b64c _ h3, b64idx_b64c _ h4, base64Decode, Option.map_some',
      Option.some_inj, List.cons.injEq, and_true]
    refine ⟨by omega, by omega, by omega⟩

theorem base64Encode_inj (l1 l2 : List Nat)
    (h1 : ∀ x ∈ l1, x < 256) (h2 : ∀ x ∈ l2, x < 256)
    (h : base64Encode l1 = base64Encode l2) : l1 = l2 := by
  have r1 := base64_roundtrip l1 h1
  have r2 := base64_roundtrip l2 h2
  rw [h, r2] at r1
  exact (Option.some_inj.mp r1).symm

/-- Injectivity of the tail of the token pipeline (`to_str_radix`,
`hex::decode`, base64): equal tokens force equal signed integers. -/
theorem token_tail_inj (s1 s2 : Nat) (bs1 bs2 : List Nat)
    (hp1 : hexPairs (toHexString s1).data = some bs1)
    (hp2 : hexPairs (toHexString s2).data = some bs2)
    (h : String.mk (base64Encode bs1) = String.mk (base64Encode bs2)) :
    s1 = s2 := by
  have hb : base64Encode bs1 = base64Encode bs2 := by
    injection h
  have hbs : bs1 = bs2 :=
    base64Encode_inj bs1 bs2 (hexPairs_bytes_lt _ _ hp1)
      (hexPairs_bytes_lt _ _ hp2) hb
  have v1 := hexPairs_val _ _ hp1
  have v2 := hexPairs_val _ _ hp2
  rw [hexValue_toHexString] at v1 v2
  rw [v1, v2, hbs]

/-! ## Lemmas: list searching -/

theorem find?_append_none {α : Type} (p : α → Bool) (l1 l2 : List α)
    (h : l1.find? p = none) : (l1 ++ l2).find? p = l2.find? p := by
  induction l1 with
  | nil => simp
  | cons a l1' ih =>
    rw [List.find?_eq_none] at h
    have hpa : p a = false := by
      have := h a (List.mem_cons_self a l1')
      simp at this
      exact this
    have htail : l1'.find? p = none := by
      rw [List.find?_eq_none]
      intro x hx
      exact h x (List.mem_cons_of_mem a hx)
    rw [List.cons_append, List.find?_cons_of_neg _ (by simp [hpa]), ih htail]

/-- `find?` over the per-row conditional update of `send_cera` commutes
with the update of the first matching row. -/
theorem find?_map_ceraUpdate (uid amount : Int) (rows : List CeraRow) :
    (rows.map (fun r => if r.account = uid
        then { r with cera := r.cera.addI amount } else r)).find?
      (fun r => r.account == uid) =
    (rows.find? (fun r => r.account == uid)).map
      (fun r => { r with cera := r.cera.addI amount }) := by
  induction rows with
  | nil => rfl
  | cons r rows' ih =>
    by_cases hr : r.account = uid
    · rw [List.map_cons, if_pos hr,
        List.find?_cons_of_pos _ (by simp [hr]),
        List.find?_cons_of_pos _ (by simp [hr])]
      rfl
    · rw [List.map_cons, if_neg hr,
        List.find?_cons_of_neg _ (by simp [hr]),
        List.find?_cons_of_neg _ (by simp [hr]), ih]

/-! ## Lemmas: the signing payload -/

theorem pre_str_ne_nil : pre_str.data.isEmpty = false := by decide

theorem pre_str_all_hex : pre_str.data.all isHexDigit = true := by decide

theorem next_str_all_hex : next_str.data.all isHexDigit = true := by decide

theorem parseHex_token_src (uid : Int) :
    parseHex (token_src uid) = some (msgNat uid) := by
  unfold parseHex msgNat
  rw [token_src_data]
  have h0 : pre_str.data ≠ [] := by decide
  have hne : (pre_str.data ++ (toUpperHex8 (uidU32 uid)).data ++
      next_str.data).isEmpty = false := by
    rw [Bool.eq_false_iff, Ne, List.isEmpty_iff]
    intro hcon
    rw [List.append_eq_nil, List.append_eq_nil] at hcon
    exact h0 hcon.1.1
  have hall : (pre_str.data ++ (toUpperHex8 (uidU32 uid)).data ++
      next_str.data).all isHexDigit = true := by
    rw [List.all_append, List.all_append]
    rw [pre_str_all_hex, next_str_all_hex, toUpperHex8_all_hex]
    rfl
  rw [hne, hall]
  simp

theorem uid_hex_spec_eq (u : Nat) :
    uid_hex_spec u =
      ((List.range 8).map (fun i => u / 16 ^ (7 - i) % 16)).map
        hexCharUpper := by
  unfold uid_hex_spec
  rw [List.map_map]
  rfl

theorem hexValue_uid_hex_spec (u : Nat) (h : u < 2 ^ 32) :
    hexValue (uid_hex_spec u) = u := by
  rw [uid_hex_spec_eq, hexValue_map_upper]
  · show digitsVal ((List.range 8).map fun i => u / 16 ^ (7 - i) % 16) = u
    have : List.range 8 = [0, 1, 2, 3, 4, 5, 6, 7] := by decide
    rw [this]
    simp only [List.map_cons, List.map_nil, digitsVal, List.length_cons,
      List.length_nil]
    norm_num
    omega
  · intro d hd
    obtain ⟨i, _, rfl⟩ := List.mem_map.mp hd
    exact Nat.mod_lt _ (by norm_num)

theorem uid_hex_spec_length (u : Nat) : (uid_hex_spec u).length = 8 := by
  unfold uid_hex_spec
  simp

/-- The spec-side message value equals the code-side one. -/
theorem spec_message_eq (uid : Int) :
    hexValue (pre_str.data ++ uid_hex_spec (uidU32 uid) ++ next_str.data) =
      msgNat uid := by
  rw [hexValue_append, hexValue_append, next_str_length, uid_hex_spec_length,
    hexValue_uid_hex_spec _ (uidU32_lt uid), msgNat_decomp]
  unfold preVal nextVal
  ring

/-! ## Concrete fixtures for witnesses and counterexamples -/

/-- A trivial digest function standing in for hex-encoded MD5. -/
def digest0 : String → String := fun _ => "aa"

def emptyStores : Stores :=
  { main := { accounts := [], limit_create_character := [], member_info := [],
              member_white_account := [], nextUid := 1 }
    billing := ⟨[]⟩
    chara := ⟨[]⟩
    inv := ⟨[]⟩
    login := ⟨[]⟩ }

/-- Failure injection: only the login-store append fails. -/
def failLogin : Failures :=
  { insAccount := false, insLimit := false, insMember := false,
    insWhite := false, insLogin := true }

/-- Failure injection: the second transactional write fails. -/
def failLimit : Failures :=
  { insAccount := false, insLimit := true, insMember := false,
    insWhite := false, insLogin := false }

def noFail : Failures :=
  { insAccount := false, insLimit := false, insMember := false,
    insWhite := false, insLogin := false }

/-- A store holding one account (uid 42, name alice, digest of `digest0`). -/
def stAlice : Stores :=
  { emptyStores with
    main := { emptyStores.main with
      accounts := [{ uid := 42, accountname := "alice",
                     password := strBytes "aa", qq := "pw" }] } }

/-- Like `stAlice` but with a stored hash matching no `digest0` output. -/
def stAliceBad : Stores :=
  { emptyStores with
    main := { emptyStores.main with
      accounts := [{ uid := 42, accountname := "alice",
                     password := strBytes "bb", qq := "pw" }] } }

/-- A `CharRow` none of whose cells decodes. -/
def rowAllNull : CharRow :=
  { charac_no := .vnull, charac_name := .vnull, lev := .vnull,
    job := .vnull, money := .vnull }

/-! ## Claim C1 -/

/-- Claim C1 counterexample: on a store with no inventory row at all,
`send_gold 7` affects zero rows, yet the operation returns success
(`Ok(())`), not a `CharacterNotFound` error — refuting the claim that a
zero-rows-affected update is reported as an error. -/
theorem c1_counterexample :
    emptyStores.inv.inventory = [] ∧
      (db_send_gold emptyStores 7 5).1 = Except.ok () :=
  ⟨rfl, rfl⟩

/-- Claim C1 (amended): when no inventory row matches `char_id`, the
additive update of `send_gold` affects zero rows and the operation still
returns success with every store unchanged; the zero-rows-affected
outcome is not surfaced as an error by `send_gold`. -/
theorem c1_send_gold_silent (st : Stores) (char_id amount : Int)
    (h : ∀ r ∈ st.inv.inventory, r.charac_no ≠ char_id) :
    db_send_gold st char_id amount = (Except.ok (), st) := by
  have hmap : ∀ l : List InvRow, (∀ r ∈ l, r.charac_no ≠ char_id) →
      l.map (fun r => if r.charac_no = char_id
        then { r with money := r.money + amount } else r) = l := by
    intro l hl
    induction l with
    | nil => rfl
    | cons r rs ih =>
      rw [List.map_cons, if_neg (hl r (by simp)),
        ih (fun x hx => hl x (by simp [hx]))]
  show (Except.ok (), { st with inv := ⟨_⟩ }) = (Except.ok (), st)
  rw [hmap st.inv.inventory h]

theorem c1_witness : db_send_gold emptyStores 7 5 = (Except.ok (), emptyStores) :=
  c1_send_gold_silent emptyStores 7 5 (by intro r hr; simp [emptyStores] at hr)

/-! ## Claim C2 -/

/-- Claim C2 counterexample: with every transactional write succeeding and
only the login-store append failing, `create_account` returns an error —
refuting the claim that the overall operation still reports success — even
though the committed account row survives. -/
theorem c2_counterexample :
    (create_account digest0 emptyStores "alice" "pw" failLogin).1 =
        Except.error "insert login failed" ∧
      ((create_account digest0 emptyStores "alice" "pw" failLogin)
        ).2.main.accounts.map (fun r => r.accountname) = ["alice"] :=
  ⟨rfl, rfl⟩

/-- Claim C2 (amended): if the account-store transaction commits and the
login-store append then fails, `create_account` propagates the error (the
append is not best-effort), but the committed account-store state is not
rolled back: the new account row is still present afterwards. -/
theorem c2_login_append_failure (digestHex : String → String) (st : Stores)
    (u p : String) (f : Failures)
    (hnone : st.main.accounts.find? (fun r => r.accountname == u) = none)
    (h1 : f.insAccount = false) (h2 : f.insLimit = false)
    (h3 : f.insMember = false) (h4 : f.insWhite = false)
    (h5 : f.insLogin = true) :
    (create_account digestHex st u p f).1 =
        Except.error "insert login failed" ∧
      ((create_account digestHex st u p f)
        ).2.main.accounts.find? (fun r => r.accountname == u) =
        some { uid := st.main.nextUid, accountname := u,
               password := strBytes (hash_password digestHex p), qq := p } := by
  have hfind2 : (st.main.accounts ++
      [({ uid := st.main.nextUid, accountname := u,
          password := strBytes (hash_password digestHex p), qq := p }
        : AccountRow)]).find?
        (fun r => r.accountname == u) =
      some { uid := st.main.nextUid, accountname := u,
             password := strBytes (hash_password digestHex p), qq := p } := by
    rw [find?_append_none _ _ _ hnone]
    simp
  unfold create_account
  rw [hnone, h1, h2, h3, h4, h5]
  simp only [Bool.false_eq_true, if_false, if_true]
  rw [hfind2]
  exact ⟨rfl, hfind2⟩

theorem c2_witness :
    (create_account digest0 emptyStores "bob" "pw" failLogin).1 =
        Except.error "insert login failed" ∧
      ((create_account digest0 emptyStores "bob" "pw" failLogin)
        ).2.main.accounts.find? (fun r => r.accountname == "bob") =
        some { uid := 1, accountname := "bob",
               password := strBytes (hash_password digest0 "pw"), qq := "pw" } :=
  c2_login_append_failure digest0 emptyStores "bob" "pw" failLogin rfl rfl rfl
    rfl rfl rfl

/-! ## Claim C8 -/

/-- The stored `cera` cell for `uid`, if a row exists. -/
def ceraBalance (b : BillingStore) (uid : Int) : Option Val :=
  (b.cash_cera.find? (fun r => r.account == uid)).map (fun r => r.cera)

/-- Claim C8: `send_cera` is an upsert: with no existing balance row for
`uid` it inserts one holding exactly `amount`; with an existing row of
balance `c` it increments it to `c + amount`.  Either way the operation
succeeds and the resulting balance is the previous balance (`0` for an
absent row) plus `amount`. -/
theorem c8_send_cera_upsert (st : Stores) (uid amount : Int)
    (hpos : amount > 0) :
    (db_send_cera st uid amount).1 = Except.ok () ∧
      (ceraBalance st.billing uid = none →
        ceraBalance (db_send_cera st uid amount).2.billing uid =
          some (.vint (0 + amount))) ∧
      (∀ c : Int, ceraBalance st.billing uid = some (.vint c) →
        ceraBalance (db_send_cera st uid amount).2.billing uid =
          some (.vint (c + amount))) := by
  refine ⟨rfl, ?_, ?_⟩
  · intro habs
    unfold ceraBalance at habs ⊢
    have hfind : st.billing.cash_cera.find? (fun r => r.account == uid) =
        none := by
      cases hf : st.billing.cash_cera.find? (fun r => r.account == uid) with
      | none => rfl
      | some r => rw [hf] at habs; simp at habs
    have hany : st.billing.cash_cera.any (fun r => r.account == uid) =
        false := by
      rw [List.any_eq_false]
      rw [List.find?_eq_none] at hfind
      exact fun x hx => hfind x hx
    show ((if st.billing.cash_cera.any (fun r => r.account == uid) = true
        then _ else st.billing.cash_cera ++
          [({ account := uid, cera := .vint amount } : CeraRow)]).find?
          (fun r => r.account == uid)).map (fun r => r.cera) = _
    rw [hany]
    simp only [Bool.false_eq_true, if_false]
    rw [find?_append_none _ _ _ hfind]
    simp
  · intro c hc
    unfold ceraBalance at hc ⊢
    cases hf : st.billing.cash_cera.find? (fun r => r.account == uid) with
    | none => rw [hf] at hc; simp at hc
    | some r =>
      rw [hf] at hc
      simp only [Option.map_some', Option.some_inj] at hc
      have hany : st.billing.cash_cera.any (fun r => r.account == uid) =
          true := by
        rw [List.any_eq_true]
        have hp := List.find?_some hf
        exact ⟨r, List.mem_of_find?_eq_some hf, hp⟩
      show ((if st.billing.cash_cera.any (fun r => r.account == uid) = true
          then st.billing.cash_cera.map (fun r => if r.account = uid
            then { r with cera := r.cera.addI amount } else r)
          else _).find? (fun r => r.account == uid)).map (fun r => r.cera) = _
      rw [hany]
      simp only [if_true]
      rw [find?_map_ceraUpdate, hf]
      simp only [Option.map_some']
      rw [hc]
      rfl

/-- A billing store holding one decodable balance row (uid 5, cera 10). -/
def stBilling : Stores :=
  { emptyStores with billing := ⟨[{ account := 5, cera := .vint 10 }]⟩ }

theorem c8_witness :
    (db_send_cera stBilling 5 3).1 = Except.ok () ∧
      ceraBalance (db_send_cera stBilling 5 3).2.billing 5 =
        some (.vint (10 + 3)) ∧
      ceraBalance (db_send_cera stBilling 7 3).2.billing 7 =
        some (.vint (0 + 3)) :=
  ⟨(c8_send_cera_upsert stBilling 5 3 (by norm_num)).1,
   (c8_send_cera_upsert stBilling 5 3 (by norm_num)).2.2 10 rfl,
   (c8_send_cera_upsert stBilling 7 3 (by norm_num)).2.1 rfl⟩

/-! ## Claim C3 -/

/-- Claim C3: `create_account` is atomic.  If the username is already
present inside the transaction it fails with the `AccountExists` error and
changes nothing; if any of the four transactional writes fails, the whole
state is rolled back (unchanged) and no account row with that username
exists afterwards; and when all four writes succeed they all commit
together: the account, creation-limit, member-info and whitelist rows for
the new uid are all present. -/
theorem c3_create_account_atomic (digestHex : String → String) (st : Stores)
    (u p : String) (f : Failures) :
    ((st.main.accounts.find? (fun r => r.accountname == u)).isSome = true →
      create_account digestHex st u p f =
        (Except.error "Account name already exists!", st)) ∧
    (st.main.accounts.find? (fun r => r.accountname == u) = none →
      (f.insAccount = true ∨ f.insLimit = true ∨ f.insMember = true ∨
        f.insWhite = true) →
      (create_account digestHex st u p f).2 = st ∧
      (create_account digestHex st u p f).2.main.accounts.find?
        (fun r => r.accountname == u) = none ∧
      (create_account digestHex st u p f).1.toOption = none) ∧
    (st.main.accounts.find? (fun r => r.accountname == u) = none →
      f.insAccount = false → f.insLimit = false → f.insMember = false →
      f.insWhite = false →
      (create_account digestHex st u p f).2.main.accounts.find?
          (fun r => r.accountname == u) =
        some { uid := st.main.nextUid, accountname := u,
               password := strBytes (hash_password digestHex p), qq := p } ∧
      st.main.nextUid ∈
        (create_account digestHex st u p f).2.main.limit_create_character ∧
      (st.main.nextUid, toString st.main.nextUid) ∈
        (create_account digestHex st u p f).2.main.member_info ∧
      st.main.nextUid ∈
        (create_account digestHex st u p f).2.main.member_white_account) := by
  refine ⟨?_, ?_, ?_⟩
  · intro hs
    obtain ⟨row, hrow⟩ := Option.isSome_iff_exists.mp hs
    unfold create_account
    rw [hrow]
  · intro hnone hfail
    have hfind2 : (st.main.accounts ++
        [({ uid := st.main.nextUid, accountname := u,
            password := strBytes (hash_password digestHex p), qq := p }
          : AccountRow)]).find? (fun r => r.accountname == u) =
        some { uid := st.main.nextUid, accountname := u,
               password := strBytes (hash_password digestHex p), qq := p } := by
      rw [find?_append_none _ _ _ hnone]
      simp
    unfold create_account
    rw [hnone]
    cases hA : f.insAccount <;> cases hL : f.insLimit <;>
      cases hM : f.insMember <;> cases hW : f.insWhite <;>
      simp_all [-List.find?_eq_none, hfind2, Except.toOption]
  · intro hnone hA hL hM hW
    have hfind2 : (st.main.accounts ++
        [({ uid := st.main.nextUid, accountname := u,
            password := strBytes (hash_password digestHex p), qq := p }
          : AccountRow)]).find? (fun r => r.accountname == u) =
        some { uid := st.main.nextUid, accountname := u,
               password := strBytes (hash_password digestHex p), qq := p } := by
      rw [find?_append_none _ _ _ hnone]
      simp
    unfold create_account
    rw [hnone]
    cases hG : f.insLogin <;> simp_all [-List.find?_eq_none, hfind2, Except.toOption]

/-- A store that already holds the account name bob (uid 9). -/
def stBob : Stores :=
  { emptyStores with
    main := { emptyStores.main with
      accounts := [{ uid := 9, accountname := "bob",
                     password := strBytes "aa", qq := "x" }] } }

theorem c3_witness :
    create_account digest0 stBob "bob" "pw" noFail =
        (Except.error "Account name already exists!", stBob) ∧
      (create_account digest0 emptyStores "carol" "pw" failLimit).2 =
        emptyStores ∧
      (create_account digest0 emptyStores "carol" "pw"
        noFail).2.main.accounts.find? (fun r => r.accountname == "carol") =
        some { uid := 1, accountname := "carol",
               password := strBytes (hash_password digest0 "pw"), qq := "pw" } :=
  ⟨(c3_create_account_atomic digest0 stBob "bob" "pw" noFail).1 rfl,
   ((c3_create_account_atomic digest0 emptyStores "carol" "pw" failLimit).2.1
     rfl (Or.inr (Or.inl rfl))).1,
   ((c3_create_account_atomic digest0 emptyStores "carol" "pw" noFail).2.2
     rfl rfl rfl rfl rfl).1⟩

/-! ## Claim C6 -/

/-- Claim C6: on a wrong password (digest bytes differing from the stored
hash), `perform_login` fails with the invalid-password error and performs
no further store interaction: the trace stops at the account lookup — no
cera read, no roster read, and no token generation. -/
theorem c6_wrong_password (digestHex : String → String) (d n : Nat)
    (st : Stores) (u p : String) (row : AccountRow)
    (hfind : st.main.accounts.find? (fun r => r.accountname == u) = some row)
    (hbad : check_password digestHex p row.password = false) :
    perform_login digestHex d n st u p =
        (Except.error "Invalid password", [Eff.connMain, Eff.queryAccount]) ∧
      Eff.queryCera ∉ (perform_login digestHex d n st u p).2 ∧
      Eff.queryChars ∉ (perform_login digestHex d n st u p).2 ∧
      Eff.genToken ∉ (perform_login digestHex d n st u p).2 := by
  have hmain : perform_login digestHex d n st u p =
      (Except.error "Invalid password", [Eff.connMain, Eff.queryAccount]) := by
    unfold perform_login
    rw [hfind]
    simp [hbad]
  refine ⟨hmain, ?_, ?_, ?_⟩ <;> rw [hmain] <;> decide

theorem c6_witness :
    perform_login digest0 1 167 stAliceBad "alice" "pw" =
      (Except.error "Invalid password", [Eff.connMain, Eff.queryAccount]) :=
  (c6_wrong_password digest0 1 167 stAliceBad "alice" "pw"
    { uid := 42, accountname := "alice", password := strBytes "bb",
      qq := "pw" } rfl rfl).1

/-! ## Claim C7 -/

/-- Claim C7: the orchestration layer rejects `send_gold`/`send_cera`
before any store call whenever the amount text does not parse as an `i32`,
parses to a non-positive value, or (for `send_gold`) no character is
selected; the rejection is a `ValidationError`-kind status and no `Spawn`
(hence no store interaction) is produced.  The store clients themselves do
not reject non-positive amounts: `Db::send_gold` and `Db::send_cera`
return success for any amount. -/
theorem c7_amount_validation (app : AppState) :
    (parseI32 (trimChars app.amount.data) = none →
      rejected (app_send_gold app) = true ∧
      rejected (app_send_cera app) = true) ∧
    (∀ v : Int, parseI32 (trimChars app.amount.data) = some v → v ≤ 0 →
      rejected (app_send_gold app) = true ∧
      rejected (app_send_cera app) = true) ∧
    (app.selected_char = none → rejected (app_send_gold app) = true) ∧
    (∀ (st : Stores) (cid a : Int), a ≤ 0 →
      (db_send_gold st cid a).1 = Except.ok ()) ∧
    (∀ (st : Stores) (uid a : Int), a ≤ 0 →
      (db_send_cera st uid a).1 = Except.ok ()) := by
  refine ⟨?_, ?_, ?_, fun _ _ _ _ => rfl, fun _ _ _ _ => rfl⟩
  · intro hp
    unfold app_send_gold app_send_cera parse_amount
    rw [hp]
    exact ⟨rfl, rfl⟩
  · intro v hp hv
    unfold app_send_gold app_send_cera parse_amount
    rw [hp]
    dsimp only
    rw [if_neg (by omega)]
    exact ⟨rfl, rfl⟩
  · intro hsel
    cases hp : parseI32 (trimChars app.amount.data) with
    | none =>
      unfold app_send_gold parse_amount
      rw [hp]
      rfl
    | some v =>
      by_cases hv : v > 0
      · unfold app_send_gold parse_amount
        rw [hp]
        dsimp only
        rw [if_pos hv]
        cases hs : app.current_session with
        | none => rfl
        | some session =>
          rw [hsel]
          rfl
      · unfold app_send_gold parse_amount
        rw [hp]
        dsimp only
        rw [if_neg hv]
        rfl

/-- App state with an empty amount box and nothing selected. -/
def app0 : AppState :=
  { amount := "0", selected_char := none, current_session := none,
    pending := false }

def appBad : AppState :=
  { amount := "12x", selected_char := none, current_session := none,
    pending := false }

theorem c7_witness :
    rejected (app_send_gold app0) = true ∧
      rejected (app_send_cera app0) = true ∧
      rejected (app_send_gold appBad) = true ∧
      (db_send_gold emptyStores 1 (-5)).1 = Except.ok () :=
  ⟨((c7_amount_validation app0).2.1 0 rfl (by norm_num)).1,
   ((c7_amount_validation app0).2.1 0 rfl (by norm_num)).2,
   ((c7_amount_validation appBad).1 rfl).1,
   (c7_amount_validation app0).2.2.2.1 emptyStores 1 (-5) (by norm_num)⟩

/-! ## Claim C5 -/

/-- `generate_login_token` with the hex parse resolved: the signing
payload always parses, leaving only the hex-decode of the signed value. -/
theorem generate_cases (d n : Nat) (uid : Int) :
    generate_login_token d n uid =
      match hexPairs (toHexString (msgNat uid ^ d % n)).data with
      | none => Except.error "hex decode error"
      | some bytes => Except.ok (String.mk (base64Encode bytes)) := by
  unfold generate_login_token
  rw [parseHex_token_src]

/-- Claim C5: the token produced by `generate_login_token` is exactly
`base64(hex-decode(hex(m^d mod n)))` where `m` is the integer value of the
hex string prefix ++ uid-as-8-zero-padded-big-endian-u32-hex ++ suffix and
`(d, n)` the RSA private exponent and modulus — raw textbook RSA with no
padding scheme and no hashing, as an equality between the code-side
function and `sign_spec`, which is written from the spec's words. -/
theorem c5_token_refinement (d n : Nat) (uid : Int) :
    (generate_login_token d n uid).toOption = sign_spec d n uid := by
  rw [generate_cases]
  have hspec : sign_spec d n uid =
      (hexPairs (toHexString (msgNat uid ^ d % n)).data).map
        (fun bs => String.mk (base64Encode bs)) := by
    show (hexPairs (toHexString
        ((hexValue (pre_str.data ++ uid_hex_spec (uidU32 uid) ++
          next_str.data)) ^ d % n)).data).map
        (fun bs => String.mk (base64Encode bs)) = _
    rw [spec_message_eq]
  rw [hspec]
  cases hp : hexPairs (toHexString (msgNat uid ^ d % n)).data with
  | none => rfl
  | some bytes => rfl

/-! ## Claim C9 -/

/-- Claim C9: token signing is deterministic (same uid, same key, same
output) and collision-free: distinct i32 uids always produce distinct
signing payloads, and whenever the RSA power map keeps the two payloads
distinct modulo `n` (the spec's "given the scheme's injectivity") and both
hex decodes succeed, the two tokens differ. -/
theorem c9_sign_deterministic_injective (d n : Nat) (uid1 uid2 : Int)
    (h1l : -(2 ^ 31) ≤ uid1) (h1u : uid1 < 2 ^ 31)
    (h2l : -(2 ^ 31) ≤ uid2) (h2u : uid2 < 2 ^ 31)
    (hne : uid1 ≠ uid2) :
    generate_login_token d n uid1 = generate_login_token d n uid1 ∧
      msgNat uid1 ≠ msgNat uid2 ∧
      ((generate_login_token d n uid1).toOption.isSome = true →
        (generate_login_token d n uid2).toOption.isSome = true →
        msgNat uid1 ^ d % n ≠ msgNat uid2 ^ d % n →
        generate_login_token d n uid1 ≠ generate_login_token d n uid2) := by
  refine ⟨rfl, msgNat_inj uid1 uid2 h1l h1u h2l h2u hne, ?_⟩
  intro hok1 hok2 hs
  rw [generate_cases d n uid1] at hok1 ⊢
  rw [generate_cases d n uid2] at hok2 ⊢
  cases hp1 : hexPairs (toHexString (msgNat uid1 ^ d % n)).data with
  | none => rw [hp1] at hok1; simp [Except.toOption] at hok1
  | some bs1 =>
    cases hp2 : hexPairs (toHexString (msgNat uid2 ^ d % n)).data with
    | none => rw [hp2] at hok2; simp [Except.toOption] at hok2
    | some bs2 =>
      intro heq
      simp only [Except.ok.injEq] at heq
      exact hs (token_tail_inj _ _ _ _ hp1 hp2 heq)

theorem c9_witness :
    msgNat 0 ≠ msgNat 1 ∧
      generate_login_token 1 167 0 ≠ generate_login_token 1 167 1 := by
  have h := c9_sign_deterministic_injective 1 167 0 1 (by norm_num)
    (by norm_num) (by norm_num) (by norm_num) (by norm_num)
  exact ⟨h.2.1, h.2.2 (by decide) (by decide) (by decide)⟩

/-! ## Claim C10 -/

/-- Claim C10: on a login whose store queries succeed, row-level decode
problems never fail the login and default instead: a missing `cash_cera`
row, or one whose `cera` cell does not decode as an integer, yields
`cera = 0`; the roster is decoded row by row with `decodeCharacter`, where
a character with no inventory money value (NULL from the LEFT JOIN) gets
`money = 0`, an undecodable id/name/level gets `0`/`""`/`0`, an
undecodable job cell defaults to job id 0, every job id outside `0..=10`
maps to `Unknown`, and ids `0..=10` map to the 11 named variants. -/
theorem c10_decode_defaults (digestHex : String → String) (d n : Nat)
    (st : Stores) (u p : String) (row : AccountRow) (s : LoginSession)
    (tr : List Eff)
    (hfind : st.main.accounts.find? (fun r => r.accountname == u) = some row)
    (hlogin : perform_login digestHex d n st u p = (Except.ok s, tr)) :
    (st.billing.cash_cera.find? (fun r => r.account == row.uid) = none →
      s.cera = 0) ∧
    (∀ r', st.billing.cash_cera.find? (fun r => r.account == row.uid) =
        some r' → r'.cera.asInt = none → s.cera = 0) ∧
    s.characters = (rosterQuery row.uid st.chara st.inv).map decodeCharacter ∧
    (∀ r : CharRow, r.money.asInt = none → (decodeCharacter r).money = 0) ∧
    (∀ cno : Int, st.inv.inventory.find? (fun i => i.charac_no == cno) =
      none → joinMoney st.inv cno = Val.vnull) ∧
    (∀ r : CharRow, r.charac_no.asInt = none → (decodeCharacter r).id = 0) ∧
    (∀ r : CharRow, r.charac_name.asStr = none →
      (decodeCharacter r).name = "") ∧
    (∀ r : CharRow, r.lev.asInt = none → (decodeCharacter r).level = 0) ∧
    (∀ r : CharRow, r.job.asInt = none →
      (decodeCharacter r).job = JobName.from_id 0) ∧
    (∀ j : Int, (j < 0 ∨ 10 < j) → JobName.from_id j = JobName.Unknown) ∧
    (JobName.from_id 0 = JobName.MaleSlayer ∧
      JobName.from_id 1 = JobName.FemaleFighter ∧
      JobName.from_id 2 = JobName.MaleGunner ∧
      JobName.from_id 3 = JobName.FemaleMage ∧
      JobName.from_id 4 = JobName.MalePriest ∧
      JobName.from_id 5 = JobName.FemaleGunner ∧
      JobName.from_id 6 = JobName.Thief ∧
      JobName.from_id 7 = JobName.MaleFighter ∧
      JobName.from_id 8 = JobName.MaleMage ∧
      JobName.from_id 9 = JobName.FemalePriest ∧
      JobName.from_id 10 = JobName.FemaleSlayer) := by
  unfold perform_login at hlogin
  rw [hfind] at hlogin
  dsimp only at hlogin
  cases hc : check_password digestHex p row.password with
  | false => rw [hc] at hlogin; simp at hlogin
  | true =>
    rw [hc] at hlogin
    simp only [if_true] at hlogin
    cases hg : generate_login_token d n row.uid with
    | error e => rw [hg] at hlogin; simp at hlogin
    | ok tok =>
      rw [hg] at hlogin
      simp only [Prod.mk.injEq, Except.ok.injEq] at hlogin
      obtain ⟨hs', _⟩ := hlogin
      subst hs'
      refine ⟨?_, ?_, rfl, ?_, ?_, ?_, ?_, ?_, ?_, ?_, ?_⟩
      · intro habs
        show ((st.billing.cash_cera.find? (fun r => r.account == row.uid)
          ).bind (fun r => r.cera.asInt)).getD 0 = 0
        rw [habs]
        rfl
      · intro r' hr' hnone'
        show ((st.billing.cash_cera.find? (fun r => r.account == row.uid)
          ).bind (fun r => r.cera.asInt)).getD 0 = 0
        rw [hr']
        show (r'.cera.asInt).getD 0 = 0
        rw [hnone']
        rfl
      · intro r h
        unfold decodeCharacter
        rw [h]
        rfl
      · intro cno h
        unfold joinMoney
        rw [h]
      · intro r h
        unfold decodeCharacter
        rw [h]
        rfl
      · intro r h
        unfold decodeCharacter
        rw [h]
        rfl
      · intro r h
        unfold decodeCharacter
        rw [h]
        rfl
      · intro r h
        unfold decodeCharacter
        rw [h]
        rfl
      · intro j hj
        unfold JobName.from_id
        split
        all_goals first | rfl | omega
      · exact ⟨rfl, rfl, rfl, rfl, rfl, rfl, rfl, rfl, rfl, rfl, rfl⟩

theorem c10_witness :
    (⟨42, "cQ==", [], 0⟩ : LoginSession).cera = 0 ∧
      (decodeCharacter rowAllNull).money = 0 ∧
      (decodeCharacter rowAllNull).name = "" ∧
      JobName.from_id (-5) = JobName.Unknown ∧
      JobName.from_id 11 = JobName.Unknown ∧
      JobName.from_id 6 = JobName.Thief := by
  have h := c10_decode_defaults digest0 1 167 stAlice "alice" "pw"
    { uid := 42, accountname := "alice", password := strBytes "aa",
      qq := "pw" }
    ⟨42, "cQ==", [], 0⟩
    [Eff.connMain, Eff.queryAccount, Eff.connBilling, Eff.queryCera,
      Eff.connChara, Eff.queryChars, Eff.genToken]
    rfl rfl
  exact ⟨h.1 rfl, h.2.2.2.1 rowAllNull rfl, h.2.2.2.2.2.2.1 rowAllNull rfl,
    h.2.2.2.2.2.2.2.2.2.1 (-5) (Or.inl (by norm_num)),
    h.2.2.2.2.2.2.2.2.2.1 11 (Or.inr (by norm_num)),
    h.2.2.2.2.2.2.2.2.2.2.2.2.2.2.2.2.1⟩

end DnF
